import Mathlib

/-!
Verification of the quote-mapper module of the xero-claude-skill repository
(`lib/quote-mapper.ts`): input validation (`validateQuoteData`), normalization
(`toQuoteData`), totals (`calculateTotals`), and the text parsers
(`parseCurrency`, `parseQuantity`).

JavaScript strings are modelled as Lean `String` (operating on `String.data`,
its list of characters), JS numbers as `ℚ` carrying the exact value of the
stored binary64 double, the TS union `string | number` as a sum type, and
thrown exceptions as `Except String`. Number comparisons and the parsersʼ
outcomes are exact; where a property depends on binary64 rounding (the
summation order in `calculateTotals`), the arithmetic is modelled explicitly
by IEEE-754 round-to-nearest-even (`roundF64Frac`, `calculateTotalsF64`).
-/

set_option maxRecDepth 1000000

deriving instance DecidableEq for Except

namespace QuoteMapper

/-! ## Models of the JavaScript string primitives used by quote-mapper -/

/-- Left half of JS `String.prototype.trim`: drop leading whitespace. -/
def trimL (l : List Char) : List Char := l.dropWhile Char.isWhitespace

/-- Right half of JS `String.prototype.trim`: drop trailing whitespace. -/
def trimR : List Char → List Char
  | [] => []
  | c :: t =>
    match trimR t with
    | [] => if c.isWhitespace then [] else [c]
    | r => c :: r

/-- Model of JS `value.trim()`: remove leading and trailing whitespace. -/
def jsTrim (s : String) : String := ⟨trimR (trimL s.data)⟩

/-- Model of JS `String.prototype.split` with a single-character separator. -/
def splitOnChar (sep : Char) : List Char → List (List Char)
  | [] => [[]]
  | c :: rest =>
    if c = sep then [] :: splitOnChar sep rest
    else
      match splitOnChar sep rest with
      | [] => [[c]]
      | p :: ps => (c :: p) :: ps

/-- Value of a block of decimal digit characters, most significant first. -/
def digitsToNat (l : List Char) : Nat :=
  l.foldl (fun a c => a * 10 + (c.toNat - '0'.toNat)) 0

/-- `10 ^ n` over `ℚ`, by plain recursion so that it evaluates by reduction. -/
def pow10 : Nat → ℚ
  | 0 => 1
  | n + 1 => 10 * pow10 n

/-- Scale a mantissa by `10 ^ e` for a signed exponent `e`. -/
def scaleByExp (q : ℚ) (e : Int) : ℚ :=
  match e with
  | .ofNat n => q * pow10 n
  | .negSucc n => q / pow10 (n + 1)

/-- Value of the optional exponent part of a JS decimal literal, given the
    characters following `e`/`E`; an exponent with no digits contributes 0
    (JS then keeps only the prefix before the `e`). -/
def expValue (t : List Char) : Int :=
  let sgnE : Int :=
    match t with
    | '-' :: _ => -1
    | _ => 1
  let t1 : List Char :=
    match t with
    | '-' :: u => u
    | '+' :: u => u
    | _ => t
  let ds := t1.takeWhile Char.isDigit
  if ds.isEmpty then 0 else sgnE * (digitsToNat ds : Int)

/-- Model of JS `parseFloat` as used by quote-mapper: skip leading whitespace,
    read an optional sign, then the longest prefix of the shape
    `digits [. digits] [(e|E) [sign] digits]` (at least one integer or
    fractional digit), and return its exact value; `none` models `NaN`
    (no numeric prefix). The `Infinity` literal and non-decimal forms are not
    produced by this repositoryʼs inputs and are modelled as no-parse. -/
def jsParseFloat (s : String) : Option ℚ :=
  let cs := s.data.dropWhile Char.isWhitespace
  let sgn : ℚ :=
    match cs with
    | '-' :: _ => -1
    | _ => 1
  let cs1 : List Char :=
    match cs with
    | '-' :: t => t
    | '+' :: t => t
    | _ => cs
  let intPart := cs1.takeWhile Char.isDigit
  let rest1 := cs1.dropWhile Char.isDigit
  let fracPart : List Char :=
    match rest1 with
    | '.' :: t => t.takeWhile Char.isDigit
    | _ => []
  let rest2 : List Char :=
    match rest1 with
    | '.' :: t => t.dropWhile Char.isDigit
    | _ => rest1
  if intPart.isEmpty && fracPart.isEmpty then none
  else
    let mant : ℚ := (digitsToNat intPart : ℚ) + (digitsToNat fracPart : ℚ) / pow10 fracPart.length
    let expo : Int :=
      match rest2 with
      | 'e' :: t => expValue t
      | 'E' :: t => expValue t
      | _ => 0
    some (scaleByExp (sgn * mant) expo)

/-! ## Data model (interfaces ParsedLineItem, ParsedQuoteInput, QuoteData) -/

/-- TS interface `ParsedLineItem` of quote-mapper. `quantity` and
    `unitAmount` carry the declared type `number`; the dynamic
    `typeof x !== 'number'` guards of the validator are therefore satisfied
    by construction in this typed model. -/
structure ParsedLineItem where
  description : String
  quantity : ℚ
  unitAmount : ℚ
  accountCode : Option String := none
deriving DecidableEq, Repr

/-- TS interface `ParsedQuoteInput` of quote-mapper. -/
structure ParsedQuoteInput where
  contactName : String
  contactEmail : Option String := none
  lineItems : List ParsedLineItem
  reference : Option String := none
  termsAndConditions : Option String := none
  date : Option String := none
deriving DecidableEq, Repr

/-- Return shape of `validateQuoteData`. -/
structure ValidationResult where
  valid : Bool
  errors : List String
deriving DecidableEq, Repr

/-- Line-item shape of `QuoteData` (from `xero-client.ts`), as produced by
    the object literal in `toQuoteData`: account code is always present. -/
structure QuoteLineItem where
  description : String
  quantity : ℚ
  unitAmount : ℚ
  accountCode : String
deriving DecidableEq, Repr

/-- `QuoteData` as produced by the object literal in `toQuoteData`:
    trimmed fields, a date that is always present. -/
structure QuoteData where
  contactName : String
  contactEmail : Option String
  lineItems : List QuoteLineItem
  reference : Option String
  termsAndConditions : Option String
  date : String
deriving DecidableEq, Repr

/-- Return shape of `calculateTotals`. -/
structure QuoteTotals where
  subtotal : ℚ
  lineItemCount : Nat
  totalQuantity : ℚ
deriving DecidableEq, Repr

/-! ## validateQuoteData -/

/-- A character admitted by the `[^\s@]` classes of the email regex. -/
def isAddrChar (c : Char) : Bool := !c.isWhitespace && c != '@'

/-- Model of the email test `/^[^\s@]+@[^\s@]+\.[^\s@]+$/`: exactly one `@`,
    a non-empty local part, and a domain part that is all address characters
    and has a dot at some interior position (the middle and final regex
    groups are each non-empty). -/
def emailOk (cs : List Char) : Bool :=
  match splitOnChar '@' cs with
  | [localPart, domainPart] =>
    !localPart.isEmpty && localPart.all isAddrChar &&
    domainPart.all isAddrChar && ((domainPart.drop 1).dropLast).contains '.'
  | _ => false

/-- Model of the date test `/^\d{4}-\d{2}-\d{2}$/`: literal shape only,
    no calendar validity. -/
def dateOk (cs : List Char) : Bool :=
  match cs with
  | [y1, y2, y3, y4, h1, m1, m2, h2, d1, d2] =>
    y1.isDigit && y2.isDigit && y3.isDigit && y4.isDigit &&
    (h1 == '-') && m1.isDigit && m2.isDigit && (h2 == '-') && d1.isDigit && d2.isDigit
  | _ => false

/-- Errors pushed by the `forEach` body of `validateQuoteData` for the item
    at 0-based position `index` (messages use the 1-based position). -/
def itemErrors (index : Nat) (item : ParsedLineItem) : List String :=
  (if item.description = "" ∨ jsTrim item.description = "" then
    ["Line item " ++ toString (index + 1) ++ ": description is required"] else [])
  ++ (if item.quantity ≤ 0 then
    ["Line item " ++ toString (index + 1) ++ ": quantity must be a positive number"] else [])
  ++ (if item.unitAmount < 0 then
    ["Line item " ++ toString (index + 1) ++ ": unit amount must be a non-negative number"] else [])

/-- The `forEach` loop of `validateQuoteData`, accumulating the per-item
    errors in order, starting at 0-based position `i`. -/
def itemsErrors : Nat → List ParsedLineItem → List String
  | _, [] => []
  | i, item :: rest => itemErrors i item ++ itemsErrors (i + 1) rest

/-- `validateQuoteData` of quote-mapper: accumulates, in order, the contact
    name check, the line-item checks, the optional email check and the
    optional date check. JS truthiness of a string (`if (data.contactEmail)`)
    is the string being non-empty. -/
def validateQuoteData (data : ParsedQuoteInput) : ValidationResult :=
  let errors : List String :=
    (if data.contactName = "" ∨ jsTrim data.contactName = "" then
      ["Contact name is required"] else [])
    ++ (if data.lineItems.isEmpty then ["At least one line item is required"]
        else itemsErrors 0 data.lineItems)
    ++ (match data.contactEmail with
        | none => []
        | some e => if e = "" then [] else if emailOk e.data then [] else
            ["Invalid email address format"])
    ++ (match data.date with
        | none => []
        | some d => if d = "" then [] else if dateOk d.data then [] else
            ["Date must be in YYYY-MM-DD format"])
  { valid := errors.isEmpty, errors := errors }

/-! ## toQuoteData and calculateTotals -/

/-- JS `x || dflt` for an optional string `x`: the default replaces both a
    missing and an empty (falsy) string. -/
def orDefault : Option String → String → String
  | none, dflt => dflt
  | some s, dflt => if s = "" then dflt else s

/-- `toQuoteData` of quote-mapper. The impure `new Date().toISOString()`
    current day is passed in as the parameter `today`. -/
def toQuoteData (today : String) (input : ParsedQuoteInput) : QuoteData :=
  { contactName := jsTrim input.contactName
    contactEmail := input.contactEmail.map jsTrim
    lineItems := input.lineItems.map (fun item =>
      { description := jsTrim item.description
        quantity := item.quantity
        unitAmount := item.unitAmount
        accountCode := orDefault item.accountCode "200" })
    reference := input.reference.map jsTrim
    termsAndConditions := input.termsAndConditions.map jsTrim
    date :=
      match input.date with
      | none => today
      | some d => if d = "" then today else d }

/-- A `QuoteData` read back as a `ParsedQuoteInput`, following TS structural
    subtyping (present optional fields, account code present on each item). -/
def QuoteData.toInput (q : QuoteData) : ParsedQuoteInput :=
  { contactName := q.contactName
    contactEmail := q.contactEmail
    lineItems := q.lineItems.map (fun item =>
      { description := item.description
        quantity := item.quantity
        unitAmount := item.unitAmount
        accountCode := some item.accountCode })
    reference := q.reference
    termsAndConditions := q.termsAndConditions
    date := some q.date }

/-- `calculateTotals` of quote-mapper, read with exact rational arithmetic:
    the idealization of the programʼs float reduction, adequate whenever all
    intermediate sums are exactly representable (as in the end-to-end
    example). `calculateTotalsF64` below models the binary64 arithmetic the
    program actually performs; the two differ exactly where rounding does. -/
def calculateTotals (lineItems : List ParsedLineItem) : QuoteTotals :=
  { subtotal := lineItems.foldl (fun sum item => sum + item.quantity * item.unitAmount) 0
    lineItemCount := lineItems.length
    totalQuantity := lineItems.foldl (fun sum item => sum + item.quantity) 0 }

/-! ## Binary64 (IEEE-754 double) rounding, for the float-faithful totals

JS numbers are binary64 doubles: every arithmetic result is rounded to 53
significand bits, round-to-nearest with ties to even. The rounding is defined
here exactly, on the integer numerator and denominator of the unrounded
rational value, so that it evaluates by kernel reduction. Finite doubles
(normal and subnormal) are rounded exactly; overflow to Infinity (magnitude
beyond 2 ^ 1024, never reached by quote amounts) is not modelled. -/

/-- Fuel-driven `⌊log2 x⌋` on naturals (0 for `x = 0`); fuel 5000 covers all
    numbers arising from double arithmetic. -/
def log2Fuel : Nat → Nat → Nat
  | 0, _ => 0
  | fuel + 1, x => if x < 2 then 0 else log2Fuel fuel (x / 2) + 1

/-- Is `2 ^ k ≤ na / d`? (`na`, `d` positive). -/
def pow2LE (k : Int) (na d : Nat) : Bool :=
  if 0 ≤ k then d * 2 ^ k.toNat ≤ na else d ≤ na * 2 ^ (-k).toNat

/-- `⌊log2 (na / d)⌋` for positive `na`, `d`: the bit-length difference is
    the answer or one more, settled by one comparison. -/
def floorLog2Frac (na d : Nat) : Int :=
  let k : Int := (log2Fuel 5000 na : Int) - (log2Fuel 5000 d : Int)
  if pow2LE k na d then k else k - 1

/-- Round `N / D` to the nearest natural, ties to even. -/
def rneNat (N D : Nat) : Nat :=
  let q0 := N / D
  let r := N % D
  if 2 * r < D then q0
  else if D < 2 * r then q0 + 1
  else if q0 % 2 = 0 then q0 else q0 + 1

/-- `± n / p` as a rational. -/
def signedDiv (neg : Bool) (n p : Nat) : ℚ :=
  if neg then Rat.divInt (-(n : Int)) (p : Int) else Rat.divInt (n : Int) (p : Int)

/-- Round the magnitude `na / d` to the nearest multiple of `2 ^ g`, ties to
    even, and attach the sign. -/
def roundAtGran (neg : Bool) (na d : Nat) (g : Int) : ℚ :=
  match g with
  | .ofNat gn => signedDiv neg (rneNat na (d * 2 ^ gn) * 2 ^ gn) 1
  | .negSucc gm => signedDiv neg (rneNat (na * 2 ^ (gm + 1)) d) (2 ^ (gm + 1))

/-- Binary64 rounding of the rational `n / d` (`d` positive): granularity
    `2 ^ (e - 52)` at exponent `e = ⌊log2 |n / d|⌋`, clamped to the subnormal
    granularity `2 ^ (-1074)`, round-to-nearest ties-to-even. -/
def roundF64Frac (n : Int) (d : Nat) : ℚ :=
  if n = 0 then 0
  else
    let na := n.natAbs
    let e := floorLog2Frac na d
    roundAtGran (n < 0) na d (if e - 52 < -1074 then -1074 else e - 52)

/-- Binary64 rounding of a rational. -/
def roundF64 (q : ℚ) : ℚ := roundF64Frac q.num q.den

/-- JS `a + b` on doubles: the exact sum, rounded. -/
def addF64 (a b : ℚ) : ℚ := roundF64Frac (a.num * b.den + b.num * a.den) (a.den * b.den)

/-- JS `a * b` on doubles: the exact product, rounded. -/
def mulF64 (a b : ℚ) : ℚ := roundF64Frac (a.num * b.num) (a.den * b.den)

/-- `calculateTotals` of quote-mapper with the programʼs binary64 arithmetic:
    both `reduce` loops accumulate JS numbers, so each addition and each
    `item.quantity * item.unitAmount` product rounds to the nearest double. -/
def calculateTotalsF64 (lineItems : List ParsedLineItem) : QuoteTotals :=
  { subtotal := lineItems.foldl
      (fun sum item => addF64 sum (mulF64 item.quantity item.unitAmount)) 0
    lineItemCount := lineItems.length
    totalQuantity := lineItems.foldl (fun sum item => addF64 sum item.quantity) 0 }

/-- The double written `0.1` in JS source (the binary64 nearest to 1/10). -/
def d01 : ℚ := roundF64 (Rat.divInt 1 10)

/-- The double written `0.2` in JS source. -/
def d02 : ℚ := roundF64 (Rat.divInt 2 10)

/-- The double written `0.3` in JS source. -/
def d03 : ℚ := roundF64 (Rat.divInt 3 10)

/-! ## parseCurrency and parseQuantity -/

/-- The TS union `string | number` taken by the two parsers. -/
abbrev StrOrNum := String ⊕ ℚ

/-- The `value.replace(/[$€,]/g, '')` step of `parseCurrency`. -/
def stripCurrency (s : String) : String :=
  ⟨s.data.filter (fun c => !(c == '$' || c == '€' || c == ','))⟩

/-- `parseCurrency` of quote-mapper: numbers pass through; strings are
    stripped of `$`, `€` and `,`, trimmed, and given to `parseFloat`;
    `NaN` throws. -/
def parseCurrency : StrOrNum → Except String ℚ
  | .inr n => .ok n
  | .inl v =>
    match jsParseFloat (jsTrim (stripCurrency v)) with
    | none => .error ("Invalid currency format: " ++ v)
    | some q => .ok q

/-- `parseQuantity` of quote-mapper: numbers pass through; a string
    containing `/` is split at `/` and the first two parts are parsed
    (throwing on `NaN` or a zero denominator, with no sign check);
    otherwise the trimmed string is given to `parseFloat`, throwing on
    `NaN` or a non-positive value. -/
def parseQuantity : StrOrNum → Except String ℚ
  | .inr n => .ok n
  | .inl v =>
    if v.data.contains '/' then
      match splitOnChar '/' v.data with
      | p0 :: p1 :: _ =>
        match jsParseFloat (jsTrim ⟨p0⟩), jsParseFloat (jsTrim ⟨p1⟩) with
        | some numerator, some denom =>
          if denom = 0 then .error ("Invalid fraction format: " ++ v)
          else .ok (numerator / denom)
        | _, _ => .error ("Invalid fraction format: " ++ v)
      | _ => .error ("Invalid fraction format: " ++ v)
    else
      match jsParseFloat (jsTrim v) with
      | none => .error ("Invalid quantity: " ++ v)
      | some parsed =>
        if parsed ≤ 0 then .error ("Invalid quantity: " ++ v) else .ok parsed


/-- The optional email error group of `validateQuoteData` (definitionally the
    third block of its error list). -/
def emailGroup (o : Option String) : List String :=
  match o with
  | none => []
  | some e => if e = "" then [] else if emailOk e.data then [] else
      ["Invalid email address format"]

/-- The optional date error group of `validateQuoteData` (definitionally the
    fourth block of its error list). -/
def dateGroup (o : Option String) : List String :=
  match o with
  | none => []
  | some d => if d = "" then [] else if dateOk d.data then [] else
      ["Date must be in YYYY-MM-DD format"]

/-! ## Helper lemmas -/

/-- Dropping leading whitespace is idempotent. -/
lemma trimL_trimL (l : List Char) : trimL (trimL l) = trimL l := by
  induction l with
  | nil => rfl
  | cons c t ih =>
    by_cases hc : c.isWhitespace
    · simp only [trimL, List.dropWhile_cons, hc, if_true] at ih ⊢
      exact ih
    · simp [trimL, List.dropWhile_cons, hc]

/-- Unfolding equation of `trimR` on a cons cell. -/
lemma trimR_cons (c : Char) (t : List Char) :
    trimR (c :: t) =
      match trimR t with
      | [] => if c.isWhitespace then [] else [c]
      | r => c :: r := rfl

/-- Dropping trailing whitespace is idempotent. -/
lemma trimR_idem (l : List Char) : trimR (trimR l) = trimR l := by
  induction l with
  | nil => rfl
  | cons c t ih =>
    rw [trimR_cons]
    rcases h : trimR t with _ | ⟨r0, rr⟩
    · by_cases hc : c.isWhitespace
      · simp [hc, trimR]
      · simp [hc, trimR_cons, trimR]
    · rw [h] at ih
      show trimR (c :: r0 :: rr) = c :: r0 :: rr
      rw [trimR_cons, ih]

/-- `trimR` either empties the list or keeps its first element. -/
lemma trimR_head? (l : List Char) : trimR l = [] ∨ (trimR l).head? = l.head? := by
  induction l with
  | nil => exact Or.inl rfl
  | cons c t _ =>
    rcases h : trimR t with _ | ⟨r0, rr⟩
    · by_cases hc : c.isWhitespace
      · exact Or.inl (by simp [trimR, h, hc])
      · exact Or.inr (by simp [trimR, h, hc])
    · exact Or.inr (by simp [trimR, h])

/-- The head surviving `trimL` is not whitespace. -/
lemma trimL_head_not_ws (l : List Char) :
    ∀ c, (trimL l).head? = some c → c.isWhitespace = false := by
  induction l with
  | nil => intro c hc; cases hc
  | cons a t ih =>
    intro c hc
    by_cases ha : a.isWhitespace
    · exact ih c (by simpa [trimL, List.dropWhile_cons, ha] using hc)
    · have hs : trimL (a :: t) = a :: t := by
        simp [trimL, List.dropWhile_cons, ha]
      rw [hs] at hc
      simp only [List.head?_cons, Option.some.injEq] at hc
      rw [← hc]
      simpa using ha

/-- A list whose head is not whitespace is fixed by `trimL`. -/
lemma trimL_eq_self (l : List Char)
    (h : ∀ c, l.head? = some c → c.isWhitespace = false) : trimL l = l := by
  cases l with
  | nil => rfl
  | cons a t => simp [trimL, List.dropWhile_cons, h a rfl]

/-- JS string trimming is idempotent. -/
lemma jsTrim_idem (s : String) : jsTrim (jsTrim s) = jsTrim s := by
  show (⟨trimR (trimL (trimR (trimL s.data)))⟩ : String) = ⟨trimR (trimL s.data)⟩
  have h1 : trimL (trimR (trimL s.data)) = trimR (trimL s.data) := by
    apply trimL_eq_self
    intro c hc
    rcases trimR_head? (trimL s.data) with h | h
    · rw [h] at hc; cases hc
    · rw [h] at hc
      exact trimL_head_not_ws s.data c hc
  rw [h1, trimR_idem]

/-- Left fold of an additive update is the sum of the mapped list. -/
lemma foldl_add_map (f : ParsedLineItem → ℚ) (l : List ParsedLineItem) (a : ℚ) :
    l.foldl (fun sum item => sum + f item) a = a + (l.map f).sum := by
  induction l generalizing a with
  | nil => simp
  | cons h t ih => simp [ih, add_assoc]

/-- Membership in a conditional singleton forces the element. -/
lemma mem_ite_singleton {α : Type} {p : Prop} [Decidable p] {x a : α}
    (h : a ∈ if p then [x] else []) : a = x := by
  by_cases hp : p
  · rw [if_pos hp] at h; simpa using h
  · rw [if_neg hp] at h; simp at h

/-- The item error messages all start with the letter L. -/
lemma lineItemMsg_head (s t : String) :
    ("Line item " ++ s ++ t).data.head? = some 'L' := by
  rw [String.data_append]
  rfl

/-- Any member of `itemErrors` starts with the letter L. -/
lemma head_of_mem_itemErrors {msg : String} {i : Nat} {item : ParsedLineItem}
    (h : msg ∈ itemErrors i item) : msg.data.head? = some 'L' := by
  simp only [itemErrors, List.mem_append] at h
  rcases h with (h | h) | h
  all_goals (rw [mem_ite_singleton h]; exact lineItemMsg_head _ _)

/-- A message that does not start with L is never an item error. -/
lemma not_mem_itemsErrors {msg : String} (hm : msg.data.head? ≠ some 'L') :
    ∀ (i : Nat) (items : List ParsedLineItem), msg ∉ itemsErrors i items := by
  intro i items
  induction items generalizing i with
  | nil => simp [itemsErrors]
  | cons a t ih =>
    simp only [itemsErrors, List.mem_append]
    rintro (hmem | hmem)
    · exact hm (head_of_mem_itemErrors hmem)
    · exact ih (i + 1) hmem

/-- A well-formed item contributes no errors. -/
lemma itemErrors_eq_nil {item : ParsedLineItem}
    (hd : jsTrim item.description ≠ "") (hq : 0 < item.quantity)
    (hu : 0 ≤ item.unitAmount) (i : Nat) : itemErrors i item = [] := by
  have h1 : ¬(item.description = "" ∨ jsTrim item.description = "") := by
    rintro (h0 | h0)
    · rw [h0] at hd; exact hd rfl
    · exact hd h0
  simp only [itemErrors, if_neg h1, if_neg (not_le.mpr hq), if_neg (not_lt.mpr hu)]
  rfl

/-- Well-formed items contribute no errors. -/
lemma itemsErrors_eq_nil {items : List ParsedLineItem}
    (h : ∀ item ∈ items, jsTrim item.description ≠ "" ∧ 0 < item.quantity ∧ 0 ≤ item.unitAmount) :
    ∀ i, itemsErrors i items = [] := by
  induction items with
  | nil => intro i; rfl
  | cons a t ih =>
    intro i
    obtain ⟨hd, hq, hu⟩ := h a (List.mem_cons_self a t)
    have ht := ih (fun item hm => h item (List.mem_cons_of_mem a hm))
    simp only [itemsErrors]
    rw [itemErrors_eq_nil hd hq hu, ht (i + 1)]
    rfl

/-- An error of the item at 0-based position `k` appears in the accumulated
    error list started at position `j`. -/
lemma mem_itemsErrors_of_get {msg : String} :
    ∀ (items : List ParsedLineItem) (j k : Nat) (item : ParsedLineItem),
      items.get? k = some item → msg ∈ itemErrors (j + k) item →
      msg ∈ itemsErrors j items := by
  intro items
  induction items with
  | nil => intro j k item hk; cases hk
  | cons a t ih =>
    intro j k item hk hmem
    cases k with
    | zero =>
      cases hk
      exact List.mem_append_left _ hmem
    | succ k =>
      refine List.mem_append_right _ (ih (j + 1) k item hk ?_)
      have : j + 1 + k = j + (k + 1) := by omega
      rw [this]
      exact hmem

/-- The validator's error list, spelled out as the four groups. -/
lemma validateQuoteData_errors (data : ParsedQuoteInput) :
    (validateQuoteData data).errors =
    (if data.contactName = "" ∨ jsTrim data.contactName = "" then
      ["Contact name is required"] else [])
    ++ (if data.lineItems.isEmpty then ["At least one line item is required"]
        else itemsErrors 0 data.lineItems)
    ++ emailGroup data.contactEmail
    ++ dateGroup data.date := rfl

/-- `valid` is exactly emptiness of the error list. -/
lemma validateQuoteData_valid (data : ParsedQuoteInput) :
    (validateQuoteData data).valid = (validateQuoteData data).errors.isEmpty := rfl


/-- Any message of the email group is the email error message. -/
lemma mem_email_group {msg : String} {o : Option String}
    (h : msg ∈ emailGroup o) : msg = "Invalid email address format" := by
  rcases o with _ | e
  · simp [emailGroup] at h
  · simp only [emailGroup] at h
    by_cases h0 : e = ""
    · rw [if_pos h0] at h; simp at h
    · rw [if_neg h0] at h
      by_cases h1 : emailOk e.data = true
      · rw [if_pos h1] at h; simp at h
      · rw [if_neg h1] at h; simpa using h

/-- Any message of the date group is the date error message. -/
lemma mem_date_group {msg : String} {o : Option String}
    (h : msg ∈ dateGroup o) : msg = "Date must be in YYYY-MM-DD format" := by
  rcases o with _ | d
  · simp [dateGroup] at h
  · simp only [dateGroup] at h
    by_cases h0 : d = ""
    · rw [if_pos h0] at h; simp at h
    · rw [if_neg h0] at h
      by_cases h1 : dateOk d.data = true
      · rw [if_pos h1] at h; simp at h
      · rw [if_neg h1] at h; simpa using h

/-- Item errors embed into the validator's error list. -/
lemma mem_errors_of_mem_itemsErrors (data : ParsedQuoteInput) {msg : String}
    (hne : data.lineItems ≠ []) (hm : msg ∈ itemsErrors 0 data.lineItems) :
    msg ∈ (validateQuoteData data).errors := by
  have hie : data.lineItems.isEmpty = false := by
    cases hLI : data.lineItems
    · exact absurd hLI hne
    · rfl
  have hG2 : (if data.lineItems.isEmpty then ["At least one line item is required"]
      else itemsErrors 0 data.lineItems) = itemsErrors 0 data.lineItems := by
    rw [hie]; rfl
  rw [validateQuoteData_errors, hG2]
  exact List.mem_append_left _ (List.mem_append_left _ (List.mem_append_right _ hm))

/-- C1: for every Quote Request satisfying the data-model constraints
    (non-blank contact name, at least one line item, each item with non-blank
    description, quantity > 0, unit amount ≥ 0, email if given in shape,
    date if given in shape), `validateQuoteData` returns valid and no
    errors. -/
theorem validateQuoteData_ok_of_valid (data : ParsedQuoteInput)
    (hname : jsTrim data.contactName ≠ "")
    (hsome : data.lineItems ≠ [])
    (hitems : ∀ item ∈ data.lineItems,
      jsTrim item.description ≠ "" ∧ 0 < item.quantity ∧ 0 ≤ item.unitAmount)
    (hemail : data.contactEmail.all (fun e => emailOk e.data) = true)
    (hdate : data.date.all (fun d => dateOk d.data) = true) :
    (validateQuoteData data).valid = true ∧ (validateQuoteData data).errors = [] := by
  have herr : (validateQuoteData data).errors = [] := by
    rw [validateQuoteData_errors]
    have h1 : (if data.contactName = "" ∨ jsTrim data.contactName = "" then
        ["Contact name is required"] else []) = ([] : List String) := by
      rw [if_neg]
      rintro (h0 | h0)
      · rw [h0] at hname; exact hname rfl
      · exact hname h0
    have hie : data.lineItems.isEmpty = false := by
      cases hLI : data.lineItems
      · exact absurd hLI hsome
      · rfl
    have h2 : (if data.lineItems.isEmpty then ["At least one line item is required"]
        else itemsErrors 0 data.lineItems) = ([] : List String) := by
      rw [hie]
      exact itemsErrors_eq_nil hitems 0
    have h3 : emailGroup data.contactEmail = [] := by
      rcases hE : data.contactEmail with _ | e
      · rfl
      · rw [hE] at hemail
        simp only [Option.all] at hemail
        simp only [emailGroup]
        by_cases he0 : e = ""
        · rw [he0] at hemail
          exact absurd hemail (by decide)
        · rw [if_neg he0, if_pos hemail]
    have h4 : dateGroup data.date = [] := by
      rcases hD : data.date with _ | d
      · rfl
      · rw [hD] at hdate
        simp only [Option.all] at hdate
        simp only [dateGroup]
        by_cases hd0 : d = ""
        · rw [hd0] at hdate
          exact absurd hdate (by decide)
        · rw [if_neg hd0, if_pos hdate]
    rw [h1, h2, h3, h4]
    rfl
  refine ⟨?_, herr⟩
  rw [validateQuoteData_valid, herr]
  rfl

/-- Concrete instance for C1: a fully well-formed request validates cleanly. -/
theorem validateQuoteData_ok_of_valid_witness :
    (jsTrim "Globex Corp" ≠ "" ∧
      ([{ description := "Design", quantity := 3, unitAmount := 120 }] :
        List ParsedLineItem) ≠ [] ∧
      (∀ item ∈ ([{ description := "Design", quantity := 3, unitAmount := 120 }] :
          List ParsedLineItem),
        jsTrim item.description ≠ "" ∧ 0 < item.quantity ∧ 0 ≤ item.unitAmount) ∧
      (some "info@globex.com").all (fun e => emailOk e.data) = true ∧
      (some "2025-03-04").all (fun d => dateOk d.data) = true) ∧
    (validateQuoteData
      { contactName := "Globex Corp"
        contactEmail := some "info@globex.com"
        lineItems := [{ description := "Design", quantity := 3, unitAmount := 120 }]
        reference := some "REF-1"
        date := some "2025-03-04" }).valid = true ∧
    (validateQuoteData
      { contactName := "Globex Corp"
        contactEmail := some "info@globex.com"
        lineItems := [{ description := "Design", quantity := 3, unitAmount := 120 }]
        reference := some "REF-1"
        date := some "2025-03-04" }).errors = [] :=
  ⟨⟨by decide, by decide, by decide, by decide, by decide⟩,
    (validateQuoteData_ok_of_valid _ (by decide) (by decide) (by decide)
      (by decide) (by decide)).1,
    (validateQuoteData_ok_of_valid _ (by decide) (by decide) (by decide)
      (by decide) (by decide)).2⟩

/-- The end-to-end example request of the spec. -/
def acmeRequest : ParsedQuoteInput :=
  { contactName := "Acme Ltd"
    lineItems := [{ description := "Consulting", quantity := 5, unitAmount := 150 },
                  { description := "Travel", quantity := 2, unitAmount := 75 }] }

/-- C2: the Acme request validates; `toQuoteData` fills in account code "200"
    on each item and the current day (`today`) as the date; and
    `calculateTotals` yields subtotal 900, 2 items, total quantity 7. -/
theorem acme_end_to_end (today : String) :
    (validateQuoteData acmeRequest).valid = true ∧
    (validateQuoteData acmeRequest).errors = [] ∧
    toQuoteData today acmeRequest =
      { contactName := "Acme Ltd", contactEmail := none,
        lineItems := [{ description := "Consulting", quantity := 5, unitAmount := 150,
                        accountCode := "200" },
                      { description := "Travel", quantity := 2, unitAmount := 75,
                        accountCode := "200" }],
        reference := none, termsAndConditions := none, date := today } ∧
    calculateTotals acmeRequest.lineItems =
      { subtotal := 900, lineItemCount := 2, totalQuantity := 7 } :=
  ⟨by decide, by decide, rfl, by with_unfolding_all decide⟩

/-- C5 counterexample: under the programʼs binary64 arithmetic the subtotal
    is order-dependent. Three items priced at the doubles 0.1, 0.2, 0.3
    (quantity 1) sum to 0.6000000000000001 in one order and to 0.6 in the
    reverse order, so the permuted list yields a different subtotal. -/
theorem calculateTotalsF64_order_dependent :
    (([⟨"a", 1, d01, none⟩, ⟨"b", 1, d02, none⟩, ⟨"c", 1, d03, none⟩] :
        List ParsedLineItem).Perm
      [⟨"c", 1, d03, none⟩, ⟨"b", 1, d02, none⟩, ⟨"a", 1, d01, none⟩]) ∧
    (calculateTotalsF64 [⟨"a", 1, d01, none⟩, ⟨"b", 1, d02, none⟩, ⟨"c", 1, d03, none⟩]).subtotal =
      Rat.divInt 5404319552844596 9007199254740992 ∧
    (calculateTotalsF64 [⟨"c", 1, d03, none⟩, ⟨"b", 1, d02, none⟩, ⟨"a", 1, d01, none⟩]).subtotal =
      Rat.divInt 5404319552844595 9007199254740992 ∧
    (calculateTotalsF64 [⟨"a", 1, d01, none⟩, ⟨"b", 1, d02, none⟩, ⟨"c", 1, d03, none⟩]).subtotal ≠
      (calculateTotalsF64 [⟨"c", 1, d03, none⟩, ⟨"b", 1, d02, none⟩, ⟨"a", 1, d01, none⟩]).subtotal :=
  ⟨by decide, by decide, by decide, by decide⟩

/-- C5 (amended): permuting line items never changes the item count; the
    subtotal and total quantity are permutation-invariant in exact (real)
    arithmetic, the idealization the binary64 reduction approximates — but
    not under the binary64 arithmetic itself (see the counterexample).
    Swapping the two summands of a single binary64 addition is harmless, as
    the two-item instance at the doubles 0.1 and 0.2 illustrates. -/
theorem calculateTotals_perm_amended :
    (∀ l1 l2 : List ParsedLineItem, l1.Perm l2 →
      (calculateTotalsF64 l1).lineItemCount = (calculateTotalsF64 l2).lineItemCount) ∧
    (∀ l1 l2 : List ParsedLineItem, l1.Perm l2 → calculateTotals l1 = calculateTotals l2) ∧
    calculateTotalsF64 [⟨"a", 1, d01, none⟩, ⟨"b", 1, d02, none⟩] =
      calculateTotalsF64 [⟨"b", 1, d02, none⟩, ⟨"a", 1, d01, none⟩] := by
  refine ⟨fun l1 l2 h => h.length_eq, fun l1 l2 h => ?_, by decide⟩
  simp only [calculateTotals, QuoteTotals.mk.injEq]
  refine ⟨?_, h.length_eq, ?_⟩
  · rw [foldl_add_map (fun item => item.quantity * item.unitAmount) l1 0,
      foldl_add_map (fun item => item.quantity * item.unitAmount) l2 0,
      (h.map (fun item => item.quantity * item.unitAmount)).sum_eq]
  · rw [foldl_add_map (fun item => item.quantity) l1 0,
      foldl_add_map (fun item => item.quantity) l2 0,
      (h.map (fun item => item.quantity)).sum_eq]

/-- Concrete instance for C5: a two-item swap, with the item count equal in
    the binary64 model and the exact totals equal. -/
theorem calculateTotals_perm_amended_witness :
    (([⟨"Hosting", 4, 30, none⟩, ⟨"Support", 6, 20, none⟩] : List ParsedLineItem).Perm
      [⟨"Support", 6, 20, none⟩, ⟨"Hosting", 4, 30, none⟩]) ∧
    (calculateTotalsF64 [⟨"Hosting", 4, 30, none⟩, ⟨"Support", 6, 20, none⟩]).lineItemCount =
      (calculateTotalsF64 [⟨"Support", 6, 20, none⟩, ⟨"Hosting", 4, 30, none⟩]).lineItemCount ∧
    calculateTotals [⟨"Hosting", 4, 30, none⟩, ⟨"Support", 6, 20, none⟩] =
      calculateTotals [⟨"Support", 6, 20, none⟩, ⟨"Hosting", 4, 30, none⟩] :=
  ⟨List.Perm.swap _ _ _,
    calculateTotals_perm_amended.1 _ _ (List.Perm.swap _ _ _),
    calculateTotals_perm_amended.2.1 _ _ (List.Perm.swap _ _ _)⟩


/-- A defaulted account code is never the empty string. -/
lemma orDefault_ne_empty (ac : Option String) : orDefault ac "200" ≠ "" := by
  rcases ac with _ | a
  · decide
  · by_cases ha : a = ""
    · rw [ha]; decide
    · simp only [orDefault, if_neg ha]; exact ha

/-- Defaulting an already defaulted account code changes nothing. -/
lemma orDefault_idem (ac : Option String) :
    orDefault (some (orDefault ac "200")) "200" = orDefault ac "200" := by
  have h := orDefault_ne_empty ac
  rw [show orDefault (some (orDefault ac "200")) "200" =
      if orDefault ac "200" = "" then "200" else orDefault ac "200" from rfl,
    if_neg h]

/-- C6: `toQuoteData` is idempotent on requests carrying a date: feeding its
    output back in (read as a request) reproduces the output, since trimming
    and defaulting are stable. -/
theorem toQuoteData_idem (today : String) (r : ParsedQuoteInput) (d : String)
    (hd : r.date = some d) :
    toQuoteData today (QuoteData.toInput (toQuoteData today r)) = toQuoteData today r := by
  simp only [toQuoteData, QuoteData.toInput, hd, QuoteData.mk.injEq, List.map_map]
  refine ⟨jsTrim_idem _, ?_, ?_, ?_, ?_, ?_⟩
  · rcases r.contactEmail with _ | e
    · rfl
    · simp [jsTrim_idem]
  · apply List.map_congr_left
    intro item _
    simp [Function.comp, QuoteLineItem.mk.injEq, jsTrim_idem, orDefault_idem]
  · rcases r.reference with _ | q
    · rfl
    · simp [jsTrim_idem]
  · rcases r.termsAndConditions with _ | q
    · rfl
    · simp [jsTrim_idem]
  · by_cases h0 : d = ""
    · simp [h0]
    · simp only [if_neg h0]

/-- Concrete instance for C6: a dated request normalizes stably. -/
theorem toQuoteData_idem_witness :
    (({ contactName := " Acme ", lineItems := [⟨" Consulting ", 5, 150, none⟩],
        date := some "2025-02-03" } : ParsedQuoteInput).date = some "2025-02-03") ∧
    toQuoteData "2025-01-01" (QuoteData.toInput (toQuoteData "2025-01-01"
      { contactName := " Acme ", lineItems := [⟨" Consulting ", 5, 150, none⟩],
        date := some "2025-02-03" })) =
    toQuoteData "2025-01-01"
      { contactName := " Acme ", lineItems := [⟨" Consulting ", 5, 150, none⟩],
        date := some "2025-02-03" } :=
  ⟨rfl, toQuoteData_idem "2025-01-01" _ "2025-02-03" rfl⟩

/-- C7: a blank contact name yields exactly one occurrence of the contact
    name error, whatever the rest of the request looks like. -/
theorem validateQuoteData_blank_name (data : ParsedQuoteInput)
    (h : jsTrim data.contactName = "") :
    (validateQuoteData data).errors.count "Contact name is required" = 1 := by
  rw [validateQuoteData_errors, if_pos (Or.inr h)]
  rw [List.count_append, List.count_append, List.count_append]
  have c2 : List.count "Contact name is required"
      (if data.lineItems.isEmpty then ["At least one line item is required"]
        else itemsErrors 0 data.lineItems) = 0 := by
    rw [List.count_eq_zero]
    intro hmem
    by_cases hie : data.lineItems.isEmpty
    · rw [if_pos hie] at hmem
      simp at hmem
    · rw [if_neg hie] at hmem
      exact not_mem_itemsErrors (by decide) 0 data.lineItems hmem
  have c3 : List.count "Contact name is required" (emailGroup data.contactEmail) = 0 := by
    rw [List.count_eq_zero]
    intro hmem
    exact absurd (mem_email_group hmem) (by decide)
  have c4 : List.count "Contact name is required" (dateGroup data.date) = 0 := by
    rw [List.count_eq_zero]
    intro hmem
    exact absurd (mem_date_group hmem) (by decide)
  rw [c2, c3, c4]
  decide

/-- Concrete instance for C7: a whitespace name with otherwise broken fields
    still yields exactly one contact name error. -/
theorem validateQuoteData_blank_name_witness :
    jsTrim "   " = "" ∧
    (validateQuoteData
      { contactName := "   "
        contactEmail := some "nonsense"
        lineItems := [{ description := "", quantity := -1, unitAmount := -1 }]
        date := some "bad" }).errors.count "Contact name is required" = 1 :=
  ⟨by decide, validateQuoteData_blank_name _ (by decide)⟩

/-- C8: for the line item at 0-based position `i`, each failed per-item check
    (blank description, quantity ≤ 0, unit amount < 0) contributes its error
    message indexed with the 1-based position `i + 1`, independently of the
    other items and checks. -/
theorem validateQuoteData_item_position (data : ParsedQuoteInput) (i : Nat)
    (item : ParsedLineItem) (hi : data.lineItems.get? i = some item) :
    (jsTrim item.description = "" →
      ("Line item " ++ toString (i + 1) ++ ": description is required")
        ∈ (validateQuoteData data).errors) ∧
    (item.quantity ≤ 0 →
      ("Line item " ++ toString (i + 1) ++ ": quantity must be a positive number")
        ∈ (validateQuoteData data).errors) ∧
    (item.unitAmount < 0 →
      ("Line item " ++ toString (i + 1) ++ ": unit amount must be a non-negative number")
        ∈ (validateQuoteData data).errors) := by
  have hne : data.lineItems ≠ [] := by
    intro h0
    rw [h0] at hi
    cases hi
  refine ⟨fun hdesc => ?_, fun hq => ?_, fun hu => ?_⟩
  · apply mem_errors_of_mem_itemsErrors data hne
    apply mem_itemsErrors_of_get data.lineItems 0 i item hi
    rw [Nat.zero_add]
    simp only [itemErrors]
    refine List.mem_append_left _ (List.mem_append_left _ ?_)
    rw [if_pos (Or.inr hdesc)]
    exact List.mem_singleton_self _
  · apply mem_errors_of_mem_itemsErrors data hne
    apply mem_itemsErrors_of_get data.lineItems 0 i item hi
    rw [Nat.zero_add]
    simp only [itemErrors]
    refine List.mem_append_left _ (List.mem_append_right _ ?_)
    rw [if_pos hq]
    exact List.mem_singleton_self _
  · apply mem_errors_of_mem_itemsErrors data hne
    apply mem_itemsErrors_of_get data.lineItems 0 i item hi
    rw [Nat.zero_add]
    simp only [itemErrors]
    refine List.mem_append_right _ ?_
    rw [if_pos hu]
    exact List.mem_singleton_self _

/-- Concrete instance for C8: the bad second item (position 2) produces all
    three indexed messages. -/
theorem validateQuoteData_item_position_witness :
    (([⟨"ok", 1, 1, none⟩, ⟨"", -2, -3, none⟩] : List ParsedLineItem).get? 1 =
      some ⟨"", -2, -3, none⟩) ∧
    (("Line item " ++ toString (1 + 1) ++ ": description is required")
      ∈ (validateQuoteData
          { contactName := "A"
            lineItems := [⟨"ok", 1, 1, none⟩, ⟨"", -2, -3, none⟩] }).errors) ∧
    (("Line item " ++ toString (1 + 1) ++ ": quantity must be a positive number")
      ∈ (validateQuoteData
          { contactName := "A"
            lineItems := [⟨"ok", 1, 1, none⟩, ⟨"", -2, -3, none⟩] }).errors) ∧
    (("Line item " ++ toString (1 + 1) ++ ": unit amount must be a non-negative number")
      ∈ (validateQuoteData
          { contactName := "A"
            lineItems := [⟨"ok", 1, 1, none⟩, ⟨"", -2, -3, none⟩] }).errors) :=
  ⟨by decide,
    (validateQuoteData_item_position
      { contactName := "A", lineItems := [⟨"ok", 1, 1, none⟩, ⟨"", -2, -3, none⟩] }
      1 ⟨"", -2, -3, none⟩ (by decide)).1 (by decide),
    (validateQuoteData_item_position
      { contactName := "A", lineItems := [⟨"ok", 1, 1, none⟩, ⟨"", -2, -3, none⟩] }
      1 ⟨"", -2, -3, none⟩ (by decide)).2.1 (by decide),
    (validateQuoteData_item_position
      { contactName := "A", lineItems := [⟨"ok", 1, 1, none⟩, ⟨"", -2, -3, none⟩] }
      1 ⟨"", -2, -3, none⟩ (by decide)).2.2 (by decide)⟩


/-- C9 counterexample: a request whose date field is present but holds the
    empty string gets no date error at all (JS truthiness skips the check),
    although the empty string does not match the `YYYY-MM-DD` shape — so
    "accepts exactly when the shape matches" fails for a present date. -/
theorem validateQuoteData_empty_date_skipped :
    (validateQuoteData
      { contactName := "A", lineItems := [⟨"x", 1, 1, none⟩], date := some "" }).errors = []
      ∧ dateOk ("" : String).data = false :=
  ⟨by decide, by decide⟩

/-- C9 (amended): for a present, non-empty date string the validator reports
    the date error exactly when the string fails the `\d{4}-\d{2}-\d{2}`
    shape; no calendar check is involved (so "2025-13-99" passes, see the
    witness). A present empty date string is skipped like an absent one. -/
theorem validateQuoteData_date_shape (data : ParsedQuoteInput) (d : String)
    (hd : data.date = some d) (hne : d ≠ "") :
    ("Date must be in YYYY-MM-DD format" ∈ (validateQuoteData data).errors ↔
      dateOk d.data = false) := by
  rw [validateQuoteData_errors, hd]
  constructor
  · intro hmem
    rcases List.mem_append.mp hmem with hmem | hmem
    · rcases List.mem_append.mp hmem with hmem | hmem
      · rcases List.mem_append.mp hmem with hmem | hmem
        · exact absurd (mem_ite_singleton hmem) (by decide)
        · by_cases hie : data.lineItems.isEmpty
          · rw [if_pos hie] at hmem
            simp at hmem
          · rw [if_neg hie] at hmem
            exact absurd hmem (not_mem_itemsErrors (by decide) 0 data.lineItems)
      · exact absurd (mem_email_group hmem) (by decide)
    · simp only [dateGroup] at hmem
      rw [if_neg hne] at hmem
      by_cases hok : dateOk d.data = true
      · rw [if_pos hok] at hmem
        simp at hmem
      · simpa using hok
  · intro hfalse
    refine List.mem_append_right _ ?_
    simp only [dateGroup]
    rw [if_neg hne, hfalse]
    simp

/-- Concrete instance for C9: the calendar-invalid "2025-13-99" matches the
    literal shape, so no date error is reported. -/
theorem validateQuoteData_date_shape_witness :
    (({ contactName := "A", lineItems := [⟨"x", 1, 1, none⟩],
        date := some "2025-13-99" } : ParsedQuoteInput).date = some "2025-13-99" ∧
      "2025-13-99" ≠ "") ∧
    "Date must be in YYYY-MM-DD format" ∉
      (validateQuoteData
        { contactName := "A", lineItems := [⟨"x", 1, 1, none⟩],
          date := some "2025-13-99" }).errors :=
  ⟨⟨rfl, by decide⟩, fun hm =>
    absurd
      ((validateQuoteData_date_shape
        { contactName := "A", lineItems := [⟨"x", 1, 1, none⟩],
          date := some "2025-13-99" } "2025-13-99" rfl (by decide)).mp hm)
      (by decide)⟩

/-- C3 counterexample: `parseQuantity` accepts the fraction "-1/2" and
    returns the non-positive value -1/2, because the fraction branch never
    checks the sign of the result — refuting "any input whose value is ≤ 0
    fails". -/
theorem parseQuantity_nonpositive_fraction_ok :
    parseQuantity (.inl "-1/2") = .ok (-(1 / 2 : ℚ)) ∧ (-(1 / 2 : ℚ) ≤ 0) :=
  ⟨by with_unfolding_all decide, by with_unfolding_all decide⟩

/-- C3 (amended): `parseQuantity` accepts plain decimals and `a/b` fractions
    computing `a / b` (so "1/2" gives 0.5 and "3/0" fails). For an input
    without `/` it fails exactly when the trimmed string has no numeric
    prefix or its value is ≤ 0; for an input with `/` it fails exactly when
    the first or second part does not parse or the denominator is zero — the
    sign of a fraction result is not checked. -/
theorem parseQuantity_spec :
    (∀ (s : String) (q : ℚ), s.data.contains '/' = false →
      (parseQuantity (.inl s) = .ok q ↔
        jsParseFloat (jsTrim s) = some q ∧ 0 < q)) ∧
    (∀ (s : String) (p0 p1 : List Char) (rest : List (List Char)) (q : ℚ),
      s.data.contains '/' = true → splitOnChar '/' s.data = p0 :: p1 :: rest →
      (parseQuantity (.inl s) = .ok q ↔
        ∃ n dnm, jsParseFloat (jsTrim ⟨p0⟩) = some n ∧
          jsParseFloat (jsTrim ⟨p1⟩) = some dnm ∧ dnm ≠ 0 ∧ q = n / dnm)) ∧
    parseQuantity (.inl "1/2") = .ok (1 / 2 : ℚ) ∧
    parseQuantity (.inl "3/0") = .error "Invalid fraction format: 3/0" := by
  refine ⟨?_, ?_, by with_unfolding_all decide, by with_unfolding_all decide⟩
  · intro s q hns
    simp only [parseQuantity, hns, Bool.false_eq_true, if_false]
    rcases hp : jsParseFloat (jsTrim s) with _ | p
    · simp
    · by_cases hle : p ≤ 0
      · constructor
        · intro h
          simp [hle] at h
        · rintro ⟨hpq, hq0⟩
          injection hpq with hpq
          exact absurd (hpq ▸ hq0) (not_lt.mpr hle)
      · constructor
        · intro h
          simp [hle] at h
          exact ⟨by rw [h], h ▸ not_le.mp hle⟩
        · rintro ⟨hpq, hq0⟩
          injection hpq with hpq
          simp [hle, hpq]
          exact hq0
  · intro s p0 p1 rest q hcon hsplit
    simp only [parseQuantity, hcon, if_true, hsplit]
    rcases hn : jsParseFloat (jsTrim ⟨p0⟩) with _ | n
    · simp
    · rcases hdv : jsParseFloat (jsTrim ⟨p1⟩) with _ | dv
      · simp
      · by_cases hz : dv = 0
        · constructor
          · intro h
            simp [hz] at h
          · rintro ⟨n1, d1, hn1, hd1, hdz, _⟩
            injection hd1 with hd1
            exact absurd (hd1 ▸ hz) hdz
        · constructor
          · intro h
            simp [hz] at h
            exact ⟨n, dv, rfl, rfl, hz, h.symm⟩
          · rintro ⟨n1, d1, hn1, hd1, hdz, hq⟩
            injection hn1 with hn1
            injection hd1 with hd1
            simp [hz, hq, hn1, hd1]
            exact hdz

/-- Concrete instance for C3: applying the non-fraction characterization
    at the plain decimal "5". -/
theorem parseQuantity_spec_witness :
    ("5".data.contains '/' = false) ∧
    (parseQuantity (.inl "5") = .ok (5 : ℚ) ↔
      jsParseFloat (jsTrim "5") = some (5 : ℚ) ∧ (0 : ℚ) < 5) :=
  ⟨by decide, parseQuantity_spec.1 "5" 5 (by decide)⟩

/-- C4: `parseCurrency` strips `$`, `€` and thousands-separator commas,
    trims, and parses the remainder as a decimal number; it fails (with the
    currency format error) exactly when the remainder has no numeric prefix;
    "$1,500.00" gives 1500 and "not-a-number" fails. -/
theorem parseCurrency_spec :
    (∀ (s : String) (q : ℚ),
      parseCurrency (.inl s) = .ok q ↔
        jsParseFloat (jsTrim (stripCurrency s)) = some q) ∧
    (∀ s : String,
      parseCurrency (.inl s) = .error ("Invalid currency format: " ++ s) ↔
        jsParseFloat (jsTrim (stripCurrency s)) = none) ∧
    parseCurrency (.inl "$1,500.00") = .ok (1500 : ℚ) ∧
    parseCurrency (.inl "not-a-number") = .error "Invalid currency format: not-a-number" := by
  refine ⟨?_, ?_, by with_unfolding_all decide, by decide⟩
  · intro s q
    simp only [parseCurrency]
    rcases hp : jsParseFloat (jsTrim (stripCurrency s)) with _ | p
    · simp
    · simp
  · intro s
    simp only [parseCurrency]
    rcases hp : jsParseFloat (jsTrim (stripCurrency s)) with _ | p
    · simp
    · simp

/-- C10: numeric inputs pass through both parsers unchanged with no range or
    sign validation — the number -5 is returned as is — while the string
    "-5" is rejected by `parseQuantity`. -/
theorem parse_passthrough_numbers :
    (∀ q : ℚ, parseCurrency (.inr q) = .ok q) ∧
    (∀ q : ℚ, parseQuantity (.inr q) = .ok q) ∧
    parseQuantity (.inr (-5 : ℚ)) = .ok (-5 : ℚ) ∧
    parseQuantity (.inl "-5") = .error "Invalid quantity: -5" :=
  ⟨fun _ => rfl, fun _ => rfl, rfl, by with_unfolding_all decide⟩

end QuoteMapper
